import Mathlib

/-!
Verification of the request/response protocol, migration engine and reset
logic of the local-app database layer (sqlite.ts, database-context.tsx,
shared-worker.ts, sqlite-worker.ts, opfs-worker).

Each definition is a shallow embedding of the corresponding source
function; the comment above each names the file and symbol it embeds.
-/

namespace LocalAppTest

/-- Scalar SQL values carried in rows and parameters. -/
inductive SqlValue
  | null
  | int (i : Int)
  | text (s : String)
  deriving DecidableEq, Repr

/-- What a settled completion received: `resolve({rows, columns})` or
`reject(new Error(err))`. -/
inductive Outcome
  | resolved (rows : List (List SqlValue)) (columns : List String)
  | rejected (err : String)
  deriving DecidableEq, Repr

/-- Correlator state: the `awaiting` map (we record its keys; each key holds
one unsettled completion handle), the log of settled completions in
settlement order, and the worker generation (bumped on reset). -/
structure CorrState where
  awaiting : List String
  settled : List (String × Outcome)
  generation : Nat
  deriving DecidableEq, Repr

/-- A message from the worker, as dispatched by `worker.onmessage` in
sqlite.ts (and identically by `createWorker`'s handler in
database-context.tsx): `exec-finished`, `exec-error`, or anything else. -/
inductive WorkerResponse
  | execFinished (id : String) (rows : List (List SqlValue)) (columns : List String)
  | execError (id : String) (err : String)
  | other
  deriving DecidableEq, Repr

/-- The request id a response carries, if any. -/
def WorkerResponse.rid : WorkerResponse → Option String
  | .execFinished id _ _ => some id
  | .execError id _ => some id
  | .other => none

/-- Embeds `worker.onmessage` (sqlite.ts lines 48-66, and the identical
handler in database-context.tsx): on `exec-finished` / `exec-error`, look up
`awaiting[id]`; if present, resolve / reject it and `delete awaiting[id]`;
if absent, do nothing.  Other message types fall to the default branch. -/
def handleWorkerMessage (s : CorrState) (r : WorkerResponse) : CorrState :=
  match r with
  | .execFinished id rows cols =>
    if id ∈ s.awaiting then
      { awaiting := s.awaiting.erase id
        settled := s.settled ++ [(id, Outcome.resolved rows cols)]
        generation := s.generation }
    else s
  | .execError id err =>
    if id ∈ s.awaiting then
      { awaiting := s.awaiting.erase id
        settled := s.settled ++ [(id, Outcome.rejected err)]
        generation := s.generation }
    else s
  | .other => s

/-- C1. For every request id, the Correlator settles the pending completion
at most once: the first matching `exec-finished` or `exec-error` settles it
(exactly one completion entry is appended) and removes the entry from the
pending map, and any later response carrying the same id leaves the state
(pending map and completions) unchanged. -/
theorem correlator_settles_at_most_once (s : CorrState) (r r' : WorkerResponse)
    (qid : String) (hnd : s.awaiting.Nodup) (hr : r.rid = some qid)
    (hmem : qid ∈ s.awaiting) (hr' : r'.rid = some qid) :
    qid ∉ (handleWorkerMessage s r).awaiting ∧
    (∃ o, (handleWorkerMessage s r).settled = s.settled ++ [(qid, o)]) ∧
    handleWorkerMessage (handleWorkerMessage s r) r' = handleWorkerMessage s r := by
  have hignore : ∀ t : CorrState, qid ∉ t.awaiting → handleWorkerMessage t r' = t := by
    intro t ht
    cases r' with
    | execFinished id2 rows cols =>
      simp only [WorkerResponse.rid, Option.some.injEq] at hr'
      subst hr'
      simp [handleWorkerMessage, ht]
    | execError id2 err =>
      simp only [WorkerResponse.rid, Option.some.injEq] at hr'
      subst hr'
      simp [handleWorkerMessage, ht]
    | other => rfl
  cases r with
  | execFinished id2 rows cols =>
    simp only [WorkerResponse.rid, Option.some.injEq] at hr
    subst hr
    have hout : handleWorkerMessage s (.execFinished id2 rows cols) =
        { awaiting := s.awaiting.erase id2
          settled := s.settled ++ [(id2, Outcome.resolved rows cols)]
          generation := s.generation } := by
      simp [handleWorkerMessage, hmem]
    refine ⟨?_, ⟨Outcome.resolved rows cols, by rw [hout]⟩, ?_⟩
    · rw [hout]; exact hnd.not_mem_erase
    · exact hignore _ (by rw [hout]; exact hnd.not_mem_erase)
  | execError id2 err =>
    simp only [WorkerResponse.rid, Option.some.injEq] at hr
    subst hr
    have hout : handleWorkerMessage s (.execError id2 err) =
        { awaiting := s.awaiting.erase id2
          settled := s.settled ++ [(id2, Outcome.rejected err)]
          generation := s.generation } := by
      simp [handleWorkerMessage, hmem]
    refine ⟨?_, ⟨Outcome.rejected err, by rw [hout]⟩, ?_⟩
    · rw [hout]; exact hnd.not_mem_erase
    · exact hignore _ (by rw [hout]; exact hnd.not_mem_erase)
  | other => simp [WorkerResponse.rid] at hr

/-- Concrete Correlator state for the C1 witness: one pending request. -/
def corrW : CorrState := ⟨["q1"], [], 0⟩

/-- First response for the C1 witness. -/
def respW : WorkerResponse := .execFinished "q1" [[SqlValue.int 1]] ["id"]

/-- Duplicate (late) response for the C1 witness. -/
def respW2 : WorkerResponse := .execError "q1" "boom"

/-- Witness for C1 at a concrete pending request. -/
theorem correlator_settles_at_most_once_witness :
    corrW.awaiting.Nodup ∧ "q1" ∈ corrW.awaiting ∧
    ("q1" ∉ (handleWorkerMessage corrW respW).awaiting ∧
     (∃ o, (handleWorkerMessage corrW respW).settled = corrW.settled ++ [("q1", o)]) ∧
     handleWorkerMessage (handleWorkerMessage corrW respW) respW2 =
       handleWorkerMessage corrW respW) :=
  ⟨by decide, by decide,
   correlator_settles_at_most_once corrW respW respW2 "q1" (by decide) rfl (by decide) rfl⟩

/-- Embeds the pending-request clearing phase of `window.resetDatabase`
(sqlite.ts lines 303-319): every entry of `awaiting` is rejected with
`new Error('Database reset in progress')` and deleted, then the worker is
terminated and replaced (generation bump). -/
def windowResetPending (s : CorrState) : CorrState :=
  { awaiting := []
    settled := s.settled ++ s.awaiting.map (fun id => (id, Outcome.rejected "Database reset in progress"))
    generation := s.generation + 1 }

/-- Embeds `resetDatabase` of database-context.tsx (lines 380-418): the
worker is terminated (generation bump) and the pending map is cleared with
`setAwaiting({})`; no pending completion is rejected or resolved. -/
def contextResetDatabase (s : CorrState) : CorrState :=
  { awaiting := []
    settled := s.settled
    generation := s.generation + 1 }

/-- Correlator state with one request pending at the moment of reset. -/
def corrPending : CorrState := ⟨["q1"], [], 0⟩

/-- C3 (code bug). With request "q1" pending, `resetDatabase` of
database-context.tsx removes the entry from the pending map while settling
no completion at all — the pending request is silently dropped, never
rejected — whereas `window.resetDatabase` of sqlite.ts rejects it with the
connection-reset error before clearing the map, as the claim requires. -/
theorem context_reset_drops_pending_without_reject :
    (contextResetDatabase corrPending).awaiting = [] ∧
    (contextResetDatabase corrPending).settled = [] ∧
    (windowResetPending corrPending).settled =
      [("q1", Outcome.rejected "Database reset in progress")] := by
  decide

/-- A migration: a named SQL script, carried as the statement list the
source computes at sqlite.ts line 123 by
`sql.split('--> statement-breakpoint').map((it) => it.trim())` (the break
marker is the explicit `--> statement-breakpoint` comment, not the
semicolon). -/
structure Migration where
  name : String
  statements : List String
  deriving DecidableEq, Repr

/-- Embeds the inner statement loop of `runMigrations` (sqlite.ts lines
125-139): empty statements are skipped; each other statement is executed via
the Backend (`exec`, the black-box engine); the first failure is rethrown. -/
def runScript (exec : String → Except String Unit) : List String → Except String Unit
  | [] => Except.ok ()
  | q :: qs =>
    if q.length = 0 then runScript exec qs
    else
      match exec q with
      | Except.ok () => runScript exec qs
      | Except.error e => Except.error e

/-- Migration-engine observable state: the contents of the
`__drizzle_migrations` table (`applied`, in insertion order), the number of
migration scripts applied so far, and the number of seed invocations. -/
structure MigState where
  applied : List String
  scriptsRun : Nat
  seedRuns : Nat
  deriving DecidableEq, Repr

/-- Embeds the migration loop of `runMigrations` (sqlite.ts lines 106-144):
for each migration file in order, skip it when `appliedMigrations.includes
(migrationName)`; otherwise execute its statements, aborting the whole run
on the first error, and only then `markMigrationAsApplied` (the INSERT into
`__drizzle_migrations`). -/
def applyMigrations (exec : String → Except String Unit) :
    List Migration → MigState → MigState × Option String
  | [], st => (st, none)
  | m :: ms, st =>
    if m.name ∈ st.applied then applyMigrations exec ms st
    else
      match runScript exec (m.statements) with
      | Except.error e => (st, some e)
      | Except.ok () =>
        applyMigrations exec ms
          { applied := st.applied ++ [m.name]
            scriptsRun := st.scriptsRun + 1
            seedRuns := st.seedRuns }

/-- Embeds `runSeeds` (sqlite.ts lines 154-163): one seed invocation; its
failures are caught and logged, never propagated, so the model records the
invocation and cannot fail. -/
def runSeedsModel (st : MigState) : MigState :=
  { st with seedRuns := st.seedRuns + 1 }

/-- Embeds `runMigrations` (sqlite.ts lines 93-152, and the identical
`runMigrations` of database-context.tsx): `isFreshDatabase` is computed from
the applied set loaded before the loop (`appliedMigrations.length === 0`);
then the migration loop runs; on success, seeds run iff the database was
fresh.  A thrown migration error propagates without seeding. -/
def runMigrations (exec : String → Except String Unit) (migs : List Migration)
    (st : MigState) : MigState × Option String :=
  let isFreshDatabase := st.applied.length = 0
  match applyMigrations exec migs st with
  | (st', some e) => (st', some e)
  | (st', none) => (if isFreshDatabase then runSeedsModel st' else st', none)

/-- Helper: when every migration name is already applied, the loop skips
everything and changes nothing. -/
theorem applyMigrations_all_skipped (exec : String → Except String Unit) :
    ∀ (migs : List Migration) (st : MigState),
      (∀ m ∈ migs, m.name ∈ st.applied) →
      applyMigrations exec migs st = (st, none) := by
  intro migs
  induction migs with
  | nil => intro st _; rfl
  | cons m ms ih =>
    intro st hall
    have hm : m.name ∈ st.applied := hall m (List.mem_cons_self m ms)
    rw [applyMigrations, if_pos hm]
    exact ih st (fun m' hm' => hall m' (List.mem_cons_of_mem m hm'))

/-- C2. A second run of the Migration Engine against a database whose
(non-empty) applied set already contains every migration name applies zero
scripts, leaves the applied set identical, and invokes the seed step zero
times: the freshness flag computed before the run is false.  The returned
state is exactly the input state and no error is raised. -/
theorem migration_second_run_noop (exec : String → Except String Unit)
    (migs : List Migration) (st : MigState) (hne : st.applied ≠ [])
    (hall : ∀ m ∈ migs, m.name ∈ st.applied) :
    runMigrations exec migs st = (st, none) := by
  have hlen : ¬ st.applied.length = 0 := by
    simpa [List.length_eq_zero] using hne
  rw [runMigrations, applyMigrations_all_skipped exec migs st hall]
  simp [hlen]

/-- Concrete executor for the migration witnesses: every statement
succeeds. -/
def execOkW : String → Except String Unit := fun _ => Except.ok ()

/-- The repository's single migration,
drizzle/0000_adorable_lord_tyger.sql. -/
def mig0 : Migration :=
  ⟨"0000_adorable_lord_tyger",
   ["CREATE TABLE ingredients (id integer PRIMARY KEY AUTOINCREMENT NOT NULL, title text NOT NULL, description text, unit_of_measurement text, base_value real NOT NULL);",
    "CREATE UNIQUE INDEX ingredients_title_unique ON ingredients (title);"]⟩

/-- The repository's migration list: the single script
drizzle/0000_adorable_lord_tyger.sql, already split at its one
statement-breakpoint marker. -/
def repoMigrations : List Migration := [mig0]

/-- Already-migrated state for the C2 witness. -/
def migratedState : MigState := ⟨["0000_adorable_lord_tyger"], 1, 1⟩

/-- Witness for C2 at the repository's own migration list. -/
theorem migration_second_run_noop_witness :
    migratedState.applied ≠ [] ∧
    (∀ m ∈ repoMigrations, m.name ∈ migratedState.applied) ∧
    runMigrations execOkW repoMigrations migratedState = (migratedState, none) :=
  ⟨by decide, by decide,
   migration_second_run_noop execOkW repoMigrations migratedState (by decide) (by decide)⟩

/-- Equation: an already-applied migration is skipped. -/
theorem applyMigrations_cons_skip (exec : String → Except String Unit)
    (m : Migration) (ms : List Migration) (st : MigState) (h : m.name ∈ st.applied) :
    applyMigrations exec (m :: ms) st = applyMigrations exec ms st := by
  rw [applyMigrations, if_pos h]

/-- Equation: a failing script aborts the loop at once. -/
theorem applyMigrations_cons_fail (exec : String → Except String Unit)
    (m : Migration) (ms : List Migration) (st : MigState) (e : String)
    (h : m.name ∉ st.applied)
    (hrs : runScript exec (m.statements) = Except.error e) :
    applyMigrations exec (m :: ms) st = (st, some e) := by
  rw [applyMigrations, if_neg h, hrs]

/-- Equation: a fully successful script is recorded, then the loop goes on. -/
theorem applyMigrations_cons_ok (exec : String → Except String Unit)
    (m : Migration) (ms : List Migration) (st : MigState)
    (h : m.name ∉ st.applied)
    (hrs : runScript exec (m.statements) = Except.ok ()) :
    applyMigrations exec (m :: ms) st =
      applyMigrations exec ms
        ⟨st.applied ++ [m.name], st.scriptsRun + 1, st.seedRuns⟩ := by
  rw [applyMigrations, if_neg h, hrs]

/-- Soundness of the applied set: a name present after the loop was either
present before, or belongs to a migration of the list whose whole script
ran successfully. -/
theorem applyMigrations_applied_sound (exec : String → Except String Unit) :
    ∀ (migs : List Migration) (st : MigState) (n : String),
      n ∈ (applyMigrations exec migs st).1.applied →
      n ∈ st.applied ∨
        ∃ m ∈ migs, m.name = n ∧ runScript exec (m.statements) = Except.ok () := by
  intro migs
  induction migs with
  | nil => intro st n h; exact Or.inl h
  | cons m ms ih =>
    intro st n h
    by_cases hm : m.name ∈ st.applied
    · rw [applyMigrations_cons_skip exec m ms st hm] at h
      rcases ih st n h with h' | ⟨m', hm', hname, hok⟩
      · exact Or.inl h'
      · exact Or.inr ⟨m', List.mem_cons_of_mem m hm', hname, hok⟩
    · cases hrs : runScript exec (m.statements) with
      | error e =>
        rw [applyMigrations_cons_fail exec m ms st e hm hrs] at h
        exact Or.inl h
      | ok u =>
        cases u
        rw [applyMigrations_cons_ok exec m ms st hm hrs] at h
        rcases ih _ n h with h' | ⟨m', hm', hname, hok⟩
        · rcases List.mem_append.mp h' with h'' | h''
          · exact Or.inl h''
          · have hn : n = m.name := by simpa using h''
            exact Or.inr ⟨m, List.mem_cons_self m ms, hn.symm, hrs⟩
        · exact Or.inr ⟨m', List.mem_cons_of_mem m hm', hname, hok⟩

/-- The post-run applied set does not depend on the seed step. -/
theorem runMigrations_applied (exec : String → Except String Unit)
    (migs : List Migration) (st : MigState) :
    (runMigrations exec migs st).1.applied = (applyMigrations exec migs st).1.applied := by
  rw [runMigrations]
  cases h : applyMigrations exec migs st with
  | mk st' err =>
    cases err with
    | none =>
      by_cases hf : st.applied.length = 0 <;> simp [hf, runSeedsModel]
    | some e => simp

/-- A mid-script failure aborts the loop: the run returns that error, the
seed counter is untouched, and the only names added to the applied set come
from the migrations processed before the failing one. -/
theorem applyMigrations_abort (exec : String → Except String Unit)
    (m : Migration) (post : List Migration) (e : String)
    (hfail : runScript exec (m.statements) = Except.error e) :
    ∀ (pre : List Migration) (st : MigState),
      (∀ p ∈ pre, p.name ∈ st.applied ∨ runScript exec (p.statements) = Except.ok ()) →
      m.name ∉ st.applied →
      (∀ p ∈ pre, p.name ≠ m.name) →
      ∃ st', applyMigrations exec (pre ++ m :: post) st = (st', some e) ∧
        st'.seedRuns = st.seedRuns ∧
        ∀ n, n ∈ st'.applied → n ∈ st.applied ∨ ∃ p ∈ pre, p.name = n := by
  intro pre
  induction pre with
  | nil =>
    intro st _ hm _
    refine ⟨st, ?_, rfl, fun n hn => Or.inl hn⟩
    simpa using applyMigrations_cons_fail exec m post st e hm hfail
  | cons p pre ih =>
    intro st hpre hm hne
    by_cases hp : p.name ∈ st.applied
    · rcases ih st (fun q hq => hpre q (List.mem_cons_of_mem p hq)) hm
        (fun q hq => hne q (List.mem_cons_of_mem p hq)) with ⟨st', heq, hseed, hsound⟩
      refine ⟨st', ?_, hseed, ?_⟩
      · rw [List.cons_append, applyMigrations_cons_skip exec p (pre ++ m :: post) st hp]
        exact heq
      · intro n hn
        rcases hsound n hn with h | ⟨q, hq, hqn⟩
        · exact Or.inl h
        · exact Or.inr ⟨q, List.mem_cons_of_mem p hq, hqn⟩
    · have hpok : runScript exec (p.statements) = Except.ok () := by
        rcases hpre p (List.mem_cons_self p pre) with h | h
        · exact absurd h hp
        · exact h
      have hm2 : m.name ∉ (st.applied ++ [p.name]) := by
        intro hmem
        rcases List.mem_append.mp hmem with h' | h'
        · exact hm h'
        · exact hne p (List.mem_cons_self p pre) (Eq.symm (by simpa using h'))
      have hpre2 : ∀ q ∈ pre,
          q.name ∈ (st.applied ++ [p.name]) ∨
            runScript exec (q.statements) = Except.ok () := by
        intro q hq
        rcases hpre q (List.mem_cons_of_mem p hq) with h | h
        · exact Or.inl (List.mem_append.mpr (Or.inl h))
        · exact Or.inr h
      rcases ih ⟨st.applied ++ [p.name], st.scriptsRun + 1, st.seedRuns⟩ hpre2 hm2
        (fun q hq => hne q (List.mem_cons_of_mem p hq)) with ⟨st', heq, hseed, hsound⟩
      refine ⟨st', ?_, hseed, ?_⟩
      · rw [List.cons_append, applyMigrations_cons_ok exec p (pre ++ m :: post) st hp hpok]
        exact heq
      · intro n hn
        rcases hsound n hn with h | ⟨q, hq, hqn⟩
        · rcases List.mem_append.mp h with h' | h'
          · exact Or.inl h'
          · exact Or.inr ⟨p, List.mem_cons_self p pre, Eq.symm (by simpa using h')⟩
        · exact Or.inr ⟨q, List.mem_cons_of_mem p hq, hqn⟩

/-- C9. A migration record is appended only after every statement of its
script executed successfully (first conjunct: any name in the post-run
applied set was either already applied or belongs to a migration whose
whole script succeeded); and a mid-script failure aborts the entire run
with that error propagated, writes no record for the failing script or for
any later not-yet-applied script, and never reaches the seed step. -/
theorem migration_record_only_after_success (exec : String → Except String Unit)
    (pre post : List Migration) (m : Migration) (st : MigState) (e : String)
    (hpre : ∀ p ∈ pre, p.name ∈ st.applied ∨ runScript exec (p.statements) = Except.ok ())
    (hm : m.name ∉ st.applied)
    (hnames : ∀ p ∈ pre, p.name ≠ m.name)
    (hfail : runScript exec (m.statements) = Except.error e) :
    (∀ (migs : List Migration) (st0 : MigState) (n : String),
        n ∈ (runMigrations exec migs st0).1.applied →
        n ∈ st0.applied ∨
          ∃ m' ∈ migs, m'.name = n ∧ runScript exec (m'.statements) = Except.ok ()) ∧
    ∃ st', runMigrations exec (pre ++ m :: post) st = (st', some e) ∧
      m.name ∉ st'.applied ∧ st'.seedRuns = st.seedRuns ∧
      ∀ q ∈ post, q.name ∉ st.applied → (∀ p ∈ pre, p.name ≠ q.name) →
        q.name ∉ st'.applied := by
  constructor
  · intro migs st0 n hn
    rw [runMigrations_applied] at hn
    exact applyMigrations_applied_sound exec migs st0 n hn
  · rcases applyMigrations_abort exec m post e hfail pre st hpre hm hnames with
      ⟨st', heq, hseed, hsound⟩
    refine ⟨st', ?_, ?_, hseed, ?_⟩
    · rw [runMigrations, heq]
    · intro hmem
      rcases hsound m.name hmem with h | ⟨p, hp, hpn⟩
      · exact hm h
      · exact hnames p hp hpn
    · intro q hq hq1 hq2 hmem
      rcases hsound q.name hmem with h | ⟨p, hp, hpn⟩
      · exact hq1 h
      · exact hq2 p hp hpn

/-- Failing executor for the C9 witness: the CREATE UNIQUE INDEX statement
of the repository's migration fails, everything else succeeds. -/
def execFailW : String → Except String Unit := fun q =>
  if q = "CREATE UNIQUE INDEX ingredients_title_unique ON ingredients (title);"
  then Except.error "constraint failure"
  else Except.ok ()

/-- Fresh state for the C9 witness. -/
def freshState : MigState := ⟨[], 0, 0⟩

set_option maxRecDepth 8192 in
/-- Witness for C9: running the repository's migration against a fresh
database with a failing second statement aborts the run, records nothing
and never seeds. -/
theorem migration_record_only_after_success_witness :
    (∀ p ∈ ([] : List Migration), p.name ∈ freshState.applied ∨
        runScript execFailW (p.statements) = Except.ok ()) ∧
    "0000_adorable_lord_tyger" ∉ freshState.applied ∧
    runScript execFailW mig0.statements = Except.error "constraint failure" ∧
    ∃ st', runMigrations execFailW repoMigrations freshState = (st', some "constraint failure") ∧
      "0000_adorable_lord_tyger" ∉ st'.applied ∧ st'.seedRuns = freshState.seedRuns ∧
      ∀ q ∈ ([] : List Migration), q.name ∉ freshState.applied →
        (∀ p ∈ ([] : List Migration), p.name ≠ q.name) → q.name ∉ st'.applied :=
  ⟨(by intro p hp; cases hp), by decide, rfl,
   (migration_record_only_after_success execFailW [] [] mig0
      freshState "constraint failure" (by intro p hp; cases hp) (by decide)
      (by intro p hp; cases hp) rfl).2⟩

/-- An event seen by the shared-worker Multiplexer: a message posted by some
foreground connection's port, or the Backend's `init-finished` signal. -/
inductive MuxEvent
  | clientMsg (m : String)
  | backendInitFinished
  deriving DecidableEq, Repr

/-- Multiplexer state: the `opfsWorkerReady` flag, the `messageQueue`, and
the sequence of messages posted to the Backend (`opfsWorker.postMessage`)
so far, in order. -/
structure MuxState where
  ready : Bool
  queue : List String
  forwarded : List String
  deriving DecidableEq, Repr

/-- Initial Multiplexer state: `opfsWorkerReady = false`,
`messageQueue = []`. -/
def muxInit : MuxState := ⟨false, [], []⟩

/-- Embeds the shared-worker Multiplexer (shared-worker.ts, second variant,
lines 224-247): a port message is forwarded at once when `opfsWorkerReady`,
otherwise pushed onto `messageQueue`; on the Backend's `init-finished`,
the flag is set and the queue is drained front-first
(`opfsWorker.postMessage(messageQueue.shift())`). -/
def muxStep (s : MuxState) : MuxEvent → MuxState
  | .clientMsg m =>
    if s.ready then { s with forwarded := s.forwarded ++ [m] }
    else { s with queue := s.queue ++ [m] }
  | .backendInitFinished =>
    { ready := true, queue := [], forwarded := s.forwarded ++ s.queue }

/-- Run the Multiplexer over a whole event trace. -/
def muxRun (evs : List MuxEvent) : MuxState := evs.foldl muxStep muxInit

/-- The client messages of a trace, in send order. -/
def sentMsgs : List MuxEvent → List String
  | [] => []
  | .clientMsg m :: evs => m :: sentMsgs evs
  | .backendInitFinished :: evs => sentMsgs evs

/-- Invariant: the queue is empty once ready, and forwarded-then-queued
messages are exactly the sent messages in order. -/
theorem muxStep_invariant :
    ∀ (evs : List MuxEvent) (s : MuxState), (s.ready = true → s.queue = []) →
      ((evs.foldl muxStep s).ready = true → (evs.foldl muxStep s).queue = []) ∧
      (evs.foldl muxStep s).forwarded ++ (evs.foldl muxStep s).queue =
        s.forwarded ++ s.queue ++ sentMsgs evs := by
  intro evs
  induction evs with
  | nil => intro s h; exact ⟨h, by simp [sentMsgs]⟩
  | cons ev evs ih =>
    intro s h
    cases ev with
    | clientMsg m =>
      by_cases hr : s.ready = true
      · have hq : s.queue = [] := h hr
        have step : muxStep s (.clientMsg m) = { s with forwarded := s.forwarded ++ [m] } := by
          simp [muxStep, hr]
        rcases ih (muxStep s (.clientMsg m)) (by rw [step]; intro _; exact hq) with ⟨h1, h2⟩
        refine ⟨h1, ?_⟩
        rw [List.foldl_cons] at *
        rw [h2, step, hq]
        simp [sentMsgs]
      · have hr' : s.ready = false := by
          cases hb : s.ready
          · rfl
          · exact absurd hb hr
        have step : muxStep s (.clientMsg m) = { s with queue := s.queue ++ [m] } := by
          simp [muxStep, hr']
        rcases ih (muxStep s (.clientMsg m)) (by rw [step]; intro hc; exact absurd hc hr) with ⟨h1, h2⟩
        refine ⟨h1, ?_⟩
        rw [List.foldl_cons] at *
        rw [h2, step]
        simp [sentMsgs]
    | backendInitFinished =>
      have step : muxStep s .backendInitFinished =
          { ready := true, queue := [], forwarded := s.forwarded ++ s.queue } := rfl
      rcases ih (muxStep s .backendInitFinished) (by rw [step]; intro _; rfl) with ⟨h1, h2⟩
      refine ⟨h1, ?_⟩
      rw [List.foldl_cons] at *
      rw [h2, step]
      simp [sentMsgs]

/-- C5. Once the Backend readiness flag has been set, the sequence of
messages delivered to the Backend equals the sequence of messages the
connections sent, in send order — none dropped, none duplicated, the queue
empty; and any message sent while ready is forwarded immediately, in the
same step, appended to the delivered sequence. -/
theorem mux_delivers_in_order (evs : List MuxEvent)
    (hready : (muxRun evs).ready = true) :
    (muxRun evs).forwarded = sentMsgs evs ∧ (muxRun evs).queue = [] ∧
    (∀ (s : MuxState) (m : String), s.ready = true →
      muxStep s (.clientMsg m) = { s with forwarded := s.forwarded ++ [m] }) := by
  rcases muxStep_invariant evs muxInit (by intro h; rfl) with ⟨h1, h2⟩
  have hq : (muxRun evs).queue = [] := h1 hready
  refine ⟨?_, hq, ?_⟩
  · have := h2
    rw [show evs.foldl muxStep muxInit = muxRun evs from rfl, hq] at this
    simpa [muxInit] using this
  · intro s m hr
    simp [muxStep, hr]

/-- Concrete trace for the C5 witness: two messages buffered before
readiness, one forwarded after. -/
def muxTraceW : List MuxEvent :=
  [.clientMsg "exec-all-1", .clientMsg "exec-get-2", .backendInitFinished,
   .clientMsg "exec-all-3"]

/-- Witness for C5 at a concrete trace. -/
theorem mux_delivers_in_order_witness :
    (muxRun muxTraceW).ready = true ∧
    ((muxRun muxTraceW).forwarded = sentMsgs muxTraceW ∧
     (muxRun muxTraceW).queue = [] ∧
     (∀ (s : MuxState) (m : String), s.ready = true →
       muxStep s (.clientMsg m) = { s with forwarded := s.forwarded ++ [m] })) :=
  ⟨by decide, mux_delivers_in_order muxTraceW (by decide)⟩

/-- What a prepared statement yields once run against the engine: its column
names (empty for zero-column DDL/DML statements) and its result rows in
step order, each row's values in column-declaration order (`stmt.get([])`).
The engine itself (prepare/bind/step/finalize) is the spec's black box. -/
structure Stmt where
  columns : List String
  rows : List (List SqlValue)
  deriving DecidableEq, Repr

/-- The engine black box: preparing+running a statement with bound
parameters either fails (thrown engine error) or yields the statement's
columns and rows. -/
def Engine : Type := String → List SqlValue → Except String Stmt

/-- The `rows` field of an `exec-finished` payload: an array of row arrays
for `exec-all`, a single row array or `null` for `exec-get`. -/
inductive RowsField
  | many (rows : List (List SqlValue))
  | one (row : List SqlValue)
  | null
  deriving DecidableEq, Repr

/-- A Backend reply to an exec request. -/
inductive ExecReply
  | execFinished (id : String) (rows : RowsField) (columns : List String)
  | execError (id : String) (err : String)
  deriving DecidableEq, Repr

/-- Embeds `case 'exec-all'` of shared-worker.ts (lines 97-133, and the
identical handler of sqlite-worker.ts): with no initialized db handle,
reply `exec-error` with `Database not initialized`; otherwise prepare and
run; with columns, collect every row (`while (stmt.step())`); without,
step once and return empty rows and columns; engine errors become
`exec-error` replies. -/
def execAllHandler (db : Option Engine) (id sql : String) (params : List SqlValue) :
    ExecReply :=
  match db with
  | none => .execError id "Database not initialized"
  | some engine =>
    match engine sql params with
    | .error e => .execError id e
    | .ok stmt =>
      if 0 < stmt.columns.length then .execFinished id (.many stmt.rows) stmt.columns
      else .execFinished id (.many []) []

/-- Embeds `case 'exec-get'` of shared-worker.ts (lines 135-166, and the
equivalent `finalRows = rows.length > 0 ? rows[0] : null` of the
opfs-worker): with no db handle, `exec-error`; otherwise `row` starts as
`null` and becomes the first stepped row if one exists; the reply carries
that row or the `null` absence marker, with the statement's columns. -/
def execGetHandler (db : Option Engine) (id sql : String) (params : List SqlValue) :
    ExecReply :=
  match db with
  | none => .execError id "Database not initialized"
  | some engine =>
    match engine sql params with
    | .error e => .execError id e
    | .ok stmt =>
      let columns := if 0 < stmt.columns.length then stmt.columns else []
      match stmt.rows.head? with
      | some r => .execFinished id (.one r) columns
      | none => .execFinished id RowsField.null columns

/-- C4. For an `exec-get` whose statement has columns: zero matching rows
yields the `null` absence marker in the `rows` field — never an empty
tuple — and at least one matching row yields exactly that first row (its
values in column-declaration order, which is how `Stmt` rows are
represented). -/
theorem exec_get_absence_marker (engine : Engine) (stmt : Stmt)
    (id sql : String) (params : List SqlValue)
    (hok : engine sql params = Except.ok stmt) (hcols : stmt.columns ≠ []) :
    (stmt.rows = [] →
      execGetHandler (some engine) id sql params =
        .execFinished id RowsField.null stmt.columns) ∧
    (stmt.rows = [] →
      ∀ cols, execGetHandler (some engine) id sql params ≠
        .execFinished id (.one []) cols) ∧
    (∀ r rs, stmt.rows = r :: rs →
      execGetHandler (some engine) id sql params =
        .execFinished id (.one r) stmt.columns) := by
  have hlen : 0 < stmt.columns.length := List.length_pos.mpr hcols
  refine ⟨?_, ?_, ?_⟩
  · intro hrows
    simp [execGetHandler, hok, hrows, hlen]
  · intro hrows cols
    simp [execGetHandler, hok, hrows, hlen]
  · intro r rs hrows
    simp [execGetHandler, hok, hrows, hlen]

/-- Statement for the C4 witness: two columns, no matching rows. -/
def stmtEmptyW : Stmt := ⟨["id", "title"], []⟩

/-- Engine for the C4 witness: one statement, no rows. -/
def engineEmptyW : Engine := fun _ _ => Except.ok stmtEmptyW

/-- Witness for C4 at a concrete zero-row get. -/
theorem exec_get_absence_marker_witness :
    engineEmptyW "SELECT id, title FROM ingredients WHERE id = 99" [] =
      Except.ok stmtEmptyW ∧
    stmtEmptyW.columns ≠ [] ∧
    ((stmtEmptyW.rows = [] →
      execGetHandler (some engineEmptyW) "q7"
          "SELECT id, title FROM ingredients WHERE id = 99" [] =
        .execFinished "q7" RowsField.null stmtEmptyW.columns) ∧
     (stmtEmptyW.rows = [] →
      ∀ cols, execGetHandler (some engineEmptyW) "q7"
          "SELECT id, title FROM ingredients WHERE id = 99" [] ≠
        .execFinished "q7" (.one []) cols) ∧
     (∀ r rs, stmtEmptyW.rows = r :: rs →
      execGetHandler (some engineEmptyW) "q7"
          "SELECT id, title FROM ingredients WHERE id = 99" [] =
        .execFinished "q7" (.one r) stmtEmptyW.columns)) :=
  ⟨rfl, by decide,
   exec_get_absence_marker engineEmptyW stmtEmptyW "q7"
     "SELECT id, title FROM ingredients WHERE id = 99" [] rfl (by decide)⟩

/-- C10. Any `exec-all` or `exec-get` received while the Backend db handle
is not initialized is answered with an `exec-error` reply carrying the same
request id and the text `Database not initialized`. -/
theorem exec_uninitialized_rejected (id sql : String) (params : List SqlValue) :
    execAllHandler none id sql params = .execError id "Database not initialized" ∧
    execGetHandler none id sql params = .execError id "Database not initialized" :=
  ⟨rfl, rfl⟩

/-- Environment facts the `start` routine depends on: is the OPFS class
present (`sqlite3.oo1.OpfsDb` truthy), does `new OpfsDb(file)` succeed, does
`new DB(file, 'ct')` succeed, and the engine version string. -/
structure Env where
  opfsAvailable : Bool
  opfsOpenOk : Bool
  transientOpenOk : Bool
  libVersion : String
  deriving DecidableEq, Repr

/-- Kind of storage actually opened. -/
inductive DbKind
  | durable
  | transient
  deriving DecidableEq, Repr

/-- Embeds `start` of shared-worker.ts (lines 194-217): inside the try,
open OPFS when available, else a transient db; a thrown error is caught
and logged, after which the fallback `new sqlite3.oo1.DB(file, 'ct')` runs
outside the try — if that also throws, the error propagates. -/
def startBackend (env : Env) : Except String DbKind :=
  if env.opfsAvailable then
    if env.opfsOpenOk then Except.ok DbKind.durable
    else if env.transientOpenOk then Except.ok DbKind.transient
    else Except.error "transient open failed"
  else if env.transientOpenOk then Except.ok DbKind.transient
  else Except.error "transient open failed"

/-- Backend session state held by the shared worker: the module-scoped
`dbInitialized` flag, current engine version and filename, and the opened
database's storage contents (abstract). -/
structure SWState where
  dbInitialized : Bool
  version : String
  filename : String
  storage : List String
  deriving DecidableEq, Repr

/-- An `init` payload: the requested filename, and whether it carries the
destructive `delete-before-open=1` flag (the reset path of the
database-context client posts
`{filename: '/mydb.sqlite3?delete-before-open=1'}`). -/
structure InitPayload where
  filename : String
  destructive : Bool
  deriving DecidableEq, Repr

/-- Reply to an `init` message. -/
inductive InitReply
  | initFinished (version filename : String) (opfs : Bool)
  | initError (msg : String)
  deriving DecidableEq, Repr

/-- Embeds `case 'init'` of shared-worker.ts (lines 42-93): when
`dbInitialized`, reply at once with the current session — version, current
filename, and `opfs: 'opfs' in sqlite3` — without reading the payload at
all; otherwise run `init`/`start`: on success set the flag, adopt the
requested filename (the engine honours the delete-before-open flag at open
time, and a transient db starts empty), and reply `init-finished` with
`opfs: !!sqlite3.oo1.OpfsDb`; on a thrown error reply `init-error`. -/
def swHandleInit (env : Env) (s : SWState) (p : InitPayload) : SWState × InitReply :=
  if s.dbInitialized then
    (s, .initFinished s.version s.filename env.opfsAvailable)
  else
    match startBackend env with
    | Except.error e => (s, .initError e)
    | Except.ok kind =>
      ({ dbInitialized := true
         version := env.libVersion
         filename := p.filename
         storage := if kind = DbKind.durable ∧ p.destructive = false then s.storage else [] },
       .initFinished env.libVersion p.filename env.opfsAvailable)

/-- Environment for the C6 counterexample: the durable backend is present,
opening it fails, the transient fallback opens. -/
def envDurFail : Env := ⟨true, false, true, "3.46.1"⟩

/-- Uninitialized Backend state. -/
def swFresh : SWState := ⟨false, "", "", []⟩

/-- Ordinary first-init payload. -/
def pPlain : InitPayload := ⟨"/mydb.sqlite3", false⟩

/-- C6 counterexample. When the durable backend is available but fails to
open and the transient fallback opens, Init does succeed — but the reply's
persistence flag is `!!sqlite3.oo1.OpfsDb = true`, not the `false` the
claim requires: the degradation is not reported. -/
theorem init_fallback_flag_counterexample :
    (swHandleInit envDurFail swFresh pPlain).2 =
      InitReply.initFinished "3.46.1" "/mydb.sqlite3" true ∧
    (swHandleInit envDurFail swFresh pPlain).2 ≠
      InitReply.initFinished "3.46.1" "/mydb.sqlite3" false := by
  exact ⟨rfl, by decide⟩

/-- C6 as amended. On a first init: the reply is `init-error` iff the
transient fallback fails to open and the durable path did not succeed;
whenever either storage opens, init succeeds — and the persistence flag of
the reply reports the availability of the durable backend
(`env.opfsAvailable`), not whether the database actually opened is durable,
so a durable-open failure that fell back to transient still reports
`true`. -/
theorem init_fallback_amended (env : Env) (s : SWState) (p : InitPayload)
    (hfresh : s.dbInitialized = false) :
    ((∃ e, (swHandleInit env s p).2 = InitReply.initError e) ↔
      (env.transientOpenOk = false ∧
        (env.opfsAvailable = false ∨ env.opfsOpenOk = false))) ∧
    ((env.transientOpenOk = true ∨
        (env.opfsAvailable = true ∧ env.opfsOpenOk = true)) →
      (swHandleInit env s p).2 =
        InitReply.initFinished env.libVersion p.filename env.opfsAvailable) := by
  rcases env with ⟨oa, oo, t, v⟩
  cases oa <;> cases oo <;> cases t <;>
    simp [swHandleInit, startBackend, hfresh]

/-- Environment for the C6 amended witness: no durable backend, transient
opens. -/
def envNoOpfs : Env := ⟨false, false, true, "3.46.1"⟩

/-- Witness for the amended C6 at a concrete fallback environment. -/
theorem init_fallback_amended_witness :
    swFresh.dbInitialized = false ∧
    (((∃ e, (swHandleInit envNoOpfs swFresh pPlain).2 = InitReply.initError e) ↔
       (envNoOpfs.transientOpenOk = false ∧
         (envNoOpfs.opfsAvailable = false ∨ envNoOpfs.opfsOpenOk = false))) ∧
     ((envNoOpfs.transientOpenOk = true ∨
         (envNoOpfs.opfsAvailable = true ∧ envNoOpfs.opfsOpenOk = true)) →
       (swHandleInit envNoOpfs swFresh pPlain).2 =
         InitReply.initFinished envNoOpfs.libVersion pPlain.filename
           envNoOpfs.opfsAvailable)) :=
  ⟨rfl, init_fallback_amended envNoOpfs swFresh pPlain rfl⟩

/-- Fully working environment for the C8 evaluation. -/
def envOpfs : Env := ⟨true, true, true, "3.46.1"⟩

/-- Already-initialized Backend with non-empty storage. -/
def swLive : SWState := ⟨true, "3.46.1", "/mydb.sqlite3", ["ingredients: 8 rows"]⟩

/-- The destructive init the reset path posts. -/
def pDestructive : InitPayload := ⟨"/mydb.sqlite3?delete-before-open=1", true⟩

/-- C8 (code bug). A second init on an initialized Backend returns the
current session unchanged whether or not the destructive flag is set: the
`dbInitialized` guard replies before ever reading the payload, so the
destructive init leaves the existing storage intact instead of discarding
and recreating it. -/
theorem second_init_ignores_destructive :
    swHandleInit envOpfs swLive pDestructive =
      (swLive, InitReply.initFinished "3.46.1" "/mydb.sqlite3" true) ∧
    (swHandleInit envOpfs swLive pDestructive).1.storage = ["ingredients: 8 rows"] ∧
    swHandleInit envOpfs swLive pPlain =
      (swLive, InitReply.initFinished "3.46.1" "/mydb.sqlite3" true) := by
  exact ⟨rfl, rfl, rfl⟩

/-- Client-proxy state: pending exec completions (`awaiting` keys), the
timeout timers currently registered (target, remaining time units), and the
completions settled so far. -/
structure ProxyState where
  awaiting : List String
  timers : List (String × Nat)
  settled : List (String × Outcome)
  deriving DecidableEq, Repr

/-- Empty proxy state. -/
def proxyStart : ProxyState := ⟨[], [], []⟩

/-- Embeds `customProxy` of sqlite.ts (lines 73-85) and `createCustomProxy`
of database-context.tsx (lines 144-170): store `{resolve, reject}` under a
fresh id in `awaiting` and post the exec message.  Neither registers any
setTimeout: no timer is added. -/
def customProxySend (s : ProxyState) (id : String) : ProxyState :=
  { s with awaiting := s.awaiting ++ [id] }

/-- Embeds the wait of `initializeSQLite` (sqlite.ts lines 215-243): the
init wait registers a completion and a `setTimeout(..., 10000)` — a timer
of 10 time units on that completion. -/
def initSQLiteSend (s : ProxyState) (id : String) : ProxyState :=
  { s with awaiting := s.awaiting ++ [id], timers := s.timers ++ [(id, 10)] }

/-- One elapsed time unit with no worker response: timers count down; any
timer reaching zero fires and rejects its still-pending target with the
timeout error. -/
def tickProxy (s : ProxyState) : ProxyState :=
  let fired := ((s.timers.filter (fun t => t.2 ≤ 1)).map Prod.fst).filter
    (fun id => s.awaiting.contains id)
  { awaiting := s.awaiting.filter (fun id => !(fired.contains id))
    timers := (s.timers.filter (fun t => 1 < t.2)).map (fun t => (t.1, t.2 - 1))
    settled := s.settled ++ fired.map (fun id => (id, Outcome.rejected "timeout")) }

/-- C7 counterexample. An `exec-all`/`exec-get` call sent through the
proxy with no response does not get rejected within the claimed bounded
wait: after 10 (even 11) elapsed time units the completion is still
pending and nothing has been settled, because the send registered no
timeout timer. -/
theorem exec_send_no_timeout_counterexample :
    (tickProxy^[11] (customProxySend proxyStart "q1")).awaiting = ["q1"] ∧
    (tickProxy^[11] (customProxySend proxyStart "q1")).settled = [] := by
  decide

/-- C7 as amended. Exec sends register the pending completion and no timer
at all, so with no response the call remains pending after arbitrarily many
time units; only the initialization wait registers the 10-unit timeout
timer. -/
theorem exec_send_has_no_timeout (s : ProxyState) (id : String) :
    (customProxySend s id).timers = s.timers ∧
    (customProxySend s id).awaiting = s.awaiting ++ [id] ∧
    (∀ n : Nat, (tickProxy^[n] (customProxySend proxyStart id)).awaiting = [id]) ∧
    (initSQLiteSend s id).timers = s.timers ++ [(id, 10)] := by
  refine ⟨rfl, rfl, ?_, rfl⟩
  have hfix : tickProxy (customProxySend proxyStart id) =
      customProxySend proxyStart id := by
    simp [tickProxy, customProxySend, proxyStart]
  intro n
  rw [Function.iterate_fixed hfix n]
  simp [customProxySend, proxyStart]

end LocalAppTest
